import Mathlib

/-!
Verification of the core audio-mixing engine (buffers, per-voice playback /
resampling, click-free gain mixing, context render orchestration).

Modelling conventions:
* `f32`/`f64` sample and position arithmetic is idealized as exact arithmetic
  in a linear ordered field `K` (`ℚ` for executable checks, `ℝ` where the
  listener geometry needs a square root).  Overflow, rounding and NaN are out
  of scope of the claims under verification.
* Rust `usize` casts of non-negative floats (`as usize`, which truncates
  toward zero and saturates negatives at 0) are modelled with `Nat.floor`.
  Rust `usize` subtraction and division are modelled with truncated `Nat`
  subtraction and division; constructor-valid buffers keep all of them in
  range.
* The two `while` loops of the resampler that are not structurally bounded
  are modelled with an explicit iteration count: the negative-read-position
  loop runs exactly `⌈-pos/step⌉` times when `step > 0` (and diverges when
  `step ≤ 0`, modelled as `none`), and the outer `render_playing` loop is run
  on fuel, with `none` signalling that the Rust loop does not terminate.
* Wall-clock bookkeeping (`render_duration`) and the audio device binding are
  not modelled.
-/

section Core

variable {K : Type} [LinearOrderedField K] [FloorRing K] [DecidableEq K]

/-- Status (state) of a sound source, from `src/source.rs`. -/
inductive Status where
  | stopped
  | playing
  | paused
deriving DecidableEq, Repr

/-- Three-component vector (glam `Vec3`), coordinates idealized in `K`. -/
structure Vec3 (K : Type) where
  x : K
  y : K
  z : K
deriving DecidableEq, Repr

/-- Componentwise difference of vectors. -/
def Vec3.sub (a b : Vec3 K) : Vec3 K := ⟨a.x - b.x, a.y - b.y, a.z - b.z⟩

/-- Dot product. -/
def Vec3.dot (a b : Vec3 K) : K := a.x * b.x + a.y * b.y + a.z * b.z

/-- Scalar multiple. -/
def Vec3.smul (c : K) (a : Vec3 K) : Vec3 K := ⟨c * a.x, c * a.y, c * a.z⟩

/-- In-memory interleaved PCM container, from `src/buffer.rs`. -/
structure Buffer (K : Type) where
  samples : List K
  channel_count : ℕ
  sample_rate : ℕ
  channel_duration_in_samples : ℕ
deriving DecidableEq, Repr

/-- `Buffer::new(DataSource::Raw { .. })` from `src/buffer.rs`.  The second
error branch is kept even though its condition is subsumed by the first, as in
the source. -/
def Buffer.new (sample_rate channel_count : ℕ) (samples : List K) :
    Except String (Buffer K) :=
  if channel_count < 1 ∨ 2 < channel_count ∨ samples.length % channel_count ≠ 0 then
    Except.error "Channel count != 1 or 2"
  else if samples.length % channel_count ≠ 0 then
    Except.error "Every channel must have a sample"
  else
    Except.ok
      { channel_duration_in_samples := samples.length / channel_count
        samples := samples
        channel_count := channel_count
        sample_rate := sample_rate }

/-- Per-voice playback state, from `src/source.rs`. -/
structure SoundSource (K : Type) where
  name : String
  buffer : Option (Buffer K)
  buf_read_pos : K
  playback_pos : K
  panning : K
  pitch : K
  gain : K
  looping : Bool
  spatial_blend : K
  resampling_multiplier : K
  status : Status
  bus : String
  play_once : Bool
  last_left_gain : Option K
  last_right_gain : Option K
  frame_samples : List (K × K)
  prev_buffer_sample : K × K
  radius : K
  position : Vec3 K
  max_distance : K
  rolloff_factor : K
deriving DecidableEq, Repr

/-- Rust `Vec::resize(n, v)`: truncate to `n` elements or pad with `v`. -/
def listResize {α : Type} (l : List α) (n : ℕ) (v : α) : List α :=
  l.take n ++ List.replicate (n - l.length) v

/-- `lerp` from `src/lib.rs`. -/
def lerp (a b t : K) : K := a + (b - a) * t

/-- The `while self.buf_read_pos < 0.0` loop at the top of
`render_until_block_end_resample` (`src/source.rs`): each pass interpolates
between `prev_buffer_sample` and the first sample of the buffer, pushes the
result, and advances both positions by `step`.  `n` is the iteration count
(computed in closed form by the caller); the guard is re-checked every pass so
surplus fuel is harmless.  Returns the updated source and the number of
samples pushed. -/
def negLoopGo (buffer : Buffer K) (step : K) : ℕ → SoundSource K → SoundSource K × ℕ
  | 0, src => (src, 0)
  | n + 1, src =>
    if src.buf_read_pos < 0 then
      let w := src.buf_read_pos - (⌊src.buf_read_pos⌋ : K)
      let curFirst : K × K :=
        if buffer.channel_count = 2 then
          (buffer.samples.getD 0 0, buffer.samples.getD 1 0)
        else
          (buffer.samples.getD 0 0, buffer.samples.getD 0 0)
      let l := src.prev_buffer_sample.1 * (1 - w) + curFirst.1 * w
      let r := src.prev_buffer_sample.2 * (1 - w) + curFirst.2 * w
      let src1 : SoundSource K :=
        { src with
          frame_samples := src.frame_samples ++ [(l, r)]
          buf_read_pos := src.buf_read_pos + step
          playback_pos := src.playback_pos + step }
      let p := negLoopGo buffer step n src1
      (p.1, p.2 + 1)
    else (src, 0)

/-- The hot loop of `render_until_block_end_resample` (`src/source.rs`):
linear interpolation between consecutive buffer samples at a fractional
position.  `remaining` counts down from `amount - rendered`, `relPos` is the
float remainder of the read position relative to `base`.  The
channel-count branch sits inside the iteration here; in the source the two
specialisations are separate loops around the same body.  Returns the final
relative position and the pushed samples, in order. -/
def resampleMainGo (buffer : Buffer K) (base bufferLast : ℕ) (relStep : K) :
    ℕ → K → List (K × K) → K × List (K × K)
  | 0, relPos, acc => (relPos, acc)
  | remaining + 1, relPos, acc =>
    let idx0 := Nat.floor relPos
    let idx := idx0 + base
    let w := relPos - (idx0 : K)
    if bufferLast ≤ idx then (relPos, acc)
    else
      let pair : K × K :=
        if buffer.channel_count = 2 then
          (buffer.samples.getD (idx * 2) 0 * (1 - w) +
             buffer.samples.getD (idx * 2 + 2) 0 * w,
           buffer.samples.getD (idx * 2 + 1) 0 * (1 - w) +
             buffer.samples.getD (idx * 2 + 3) 0 * w)
        else
          let v := buffer.samples.getD idx 0 * (1 - w) +
            buffer.samples.getD (idx + 1) 0 * w
          (v, v)
      resampleMainGo buffer base bufferLast relStep remaining (relPos + relStep) (acc ++ [pair])

/-- `SoundSource::render_until_block_end_resample` (`src/source.rs`).
`none` models the divergence of the leading `while` loop when the read
position is negative and `step ≤ 0`. -/
def renderUntilBlockEndResample (src : SoundSource K) (buffer : Buffer K)
    (amount : ℕ) (step : K) : Option (SoundSource K × ℕ) :=
  if src.buf_read_pos < 0 ∧ step ≤ 0 then none
  else
    let n := Nat.ceil (-src.buf_read_pos / step)
    let p := negLoopGo buffer step n src
    let src1 := p.1
    let renderedNeg := p.2
    let base := Nat.floor src1.buf_read_pos
    let relPos0 := src1.buf_read_pos - (base : K)
    let bufferLast := buffer.samples.length / buffer.channel_count - 1
    let q := resampleMainGo buffer base bufferLast step (amount - renderedNeg) relPos0 []
    some
      ({ src1 with
          frame_samples := src1.frame_samples ++ q.2
          buf_read_pos := src1.buf_read_pos + (q.1 - relPos0)
          playback_pos := src1.playback_pos + (q.1 - relPos0) },
        renderedNeg + q.2.length)

/-- `SoundSource::render_until_block_end` (`src/source.rs`): the `step == 1.0`
fast path (direct copy at the integer read position, mono duplicated to both
channels, a cached `prev_buffer_sample` bridging a transiently negative read
position), falling back to the resampling path otherwise.  Returns the source
and the number of written samples reported to the caller (the bridging sample
is pushed but not counted, as in the source). -/
def renderUntilBlockEnd (src : SoundSource K) (buffer : Buffer K) (amount : ℕ) :
    Option (SoundSource K × ℕ) :=
  let step := src.pitch * src.resampling_multiplier
  if step = 1 then
    let p :=
      if src.buf_read_pos < 0 then
        (({ src with
            frame_samples := src.frame_samples ++ [src.prev_buffer_sample]
            buf_read_pos := 0 } : SoundSource K), amount - 1)
      else (src, amount)
    let src1 := p.1
    let amount1 := p.2
    let fromIdx := Nat.floor src1.buf_read_pos
    let bufferLen := buffer.samples.length / buffer.channel_count
    let rendered := min (bufferLen - fromIdx) amount1
    let pushed : List (K × K) :=
      if buffer.channel_count = 2 then
        (List.range rendered).map fun i =>
          (buffer.samples.getD ((fromIdx + i) * 2) 0,
           buffer.samples.getD ((fromIdx + i) * 2 + 1) 0)
      else
        (List.range rendered).map fun i =>
          (buffer.samples.getD (fromIdx + i) 0, buffer.samples.getD (fromIdx + i) 0)
    some
      ({ src1 with
          frame_samples := src1.frame_samples ++ pushed
          buf_read_pos := src1.buf_read_pos + (rendered : K)
          playback_pos := src1.playback_pos + (rendered : K) }, rendered)
  else
    renderUntilBlockEndResample src buffer amount step

/-- The `loop` of `SoundSource::render_playing` (`src/source.rs`), run on
fuel: accumulate written samples until `count == amount`; otherwise rewind
both positions to 0 (`end_reached` is constantly `true` in the source) and
either stop (non-looping) or retry from the buffer start.  `none` models a
non-terminating loop. -/
def renderPlayingLoop (buffer : Buffer K) (amount : ℕ) :
    ℕ → SoundSource K → ℕ → Option (SoundSource K)
  | 0, _, _ => none
  | fuel + 1, src, count =>
    match renderUntilBlockEnd src buffer (amount - count) with
    | none => none
    | some (src1, r) =>
      let count1 := count + r
      if count1 = amount then some src1
      else
        let src2 : SoundSource K := { src1 with buf_read_pos := 0, playback_pos := 0 }
        if src2.looping = false then some { src2 with status := Status.stopped }
        else renderPlayingLoop buffer amount fuel src2 count1

/-- `SoundSource::render` (`src/source.rs`): clear the scratch
`frame_samples`, run `render_playing` when the status is `Playing` and a
non-empty buffer is present, then `resize` the scratch to exactly `amount`
entries padded with `(0, 0)`.  The fuel `amount + 2` bounds the
`render_playing` loop whenever the Rust loop terminates: after at most one
iteration from an arbitrary read position, every further iteration starts
from position 0 and either makes at least one sample of progress or repeats
an identical state forever. -/
def SoundSource.render (src : SoundSource K) (amount : ℕ) : Option (SoundSource K) :=
  let src0 : SoundSource K := { src with frame_samples := [] }
  match src0.buffer with
  | some buffer =>
    if src0.status = Status.playing ∧ buffer.samples ≠ [] then
      match renderPlayingLoop buffer amount (amount + 2) src0 0 with
      | none => none
      | some src1 =>
        some { src1 with frame_samples := listResize src1.frame_samples amount (0, 0) }
    else some { src0 with frame_samples := listResize src0.frame_samples amount (0, 0) }
  | none => some { src0 with frame_samples := listResize src0.frame_samples amount (0, 0) }

/-- The gain-ramp branch of `render_with_params` (`src/lib.rs`): walk the mix
buffer zipped with the source's `frame_samples`, accumulating
`lerp(last, new, t) * raw` into each channel while `t` advances by `step`
per sample.  Mix entries beyond the shorter list are left unchanged, as with
Rust's `zip`. -/
def rampMix (lastL newL lastR newR step : K) :
    List (K × K) → List (K × K) → K → List (K × K)
  | [], _, _ => []
  | m :: mix, [], _ => m :: mix
  | m :: mix, f :: frames, t =>
    (m.1 + lerp lastL newL t * f.1, m.2 + lerp lastR newR t * f.2) ::
      rampMix lastL newL lastR newR step mix frames (t + step)

/-- The steady-gain branch of `render_with_params` (`src/lib.rs`): a plain
multiply-accumulate of `frame_samples` into the mix buffer. -/
def constMix (newL newR : K) : List (K × K) → List (K × K) → List (K × K)
  | [], _ => []
  | m :: mix, [] => m :: mix
  | m :: mix, f :: frames =>
    (m.1 + newL * f.1, m.2 + newR * f.2) :: constMix newL newR mix frames

/-- `render_with_params` (`src/lib.rs`): seed absent last gains from the
current gains (`get_or_insert`), then mix with a per-sample linear gain ramp
when either channel's gain changed since the last block, or with a constant
gain otherwise.  Returns the updated source and the updated mix buffer. -/
def renderWithParams (src : SoundSource K) (left_gain right_gain : K)
    (mix : List (K × K)) : SoundSource K × List (K × K) :=
  let last_left := src.last_left_gain.getD left_gain
  let last_right := src.last_right_gain.getD right_gain
  let src1 : SoundSource K :=
    { src with last_left_gain := some last_left, last_right_gain := some last_right }
  if last_left ≠ left_gain ∨ last_right ≠ right_gain then
    (src1,
      rampMix last_left left_gain last_right right_gain
        (1 / (mix.length : K)) mix src1.frame_samples 0)
  else
    (src1, constMix left_gain right_gain mix src1.frame_samples)

end Core

section Geometry

/-- Listener from `src/lib.rs`: a 3x3 basis stored as three columns plus a
world position.  `to_cols_array` maps column 0 to the ear axis, column 1 to
the up axis and column 2 to the look axis. -/
structure Listener where
  basisCol0 : Vec3 ℝ
  basisCol1 : Vec3 ℝ
  basisCol2 : Vec3 ℝ
  position : Vec3 ℝ

/-- `Listener::ear_axis`: the first basis column. -/
def Listener.earAxis (l : Listener) : Vec3 ℝ := l.basisCol0

/-- `Listener::up_axis`: the second basis column. -/
def Listener.upAxis (l : Listener) : Vec3 ℝ := l.basisCol1

/-- `Listener::look_axis`: the third basis column. -/
def Listener.lookAxis (l : Listener) : Vec3 ℝ := l.basisCol2

/-- glam `Vec3::try_normalize`: `some (v / ‖v‖)` when the reciprocal length is
finite and positive — in exact arithmetic, exactly when `v ≠ 0`, i.e. when
`v ⬝ v > 0`. -/
noncomputable def tryNormalize (v : Vec3 ℝ) : Option (Vec3 ℝ) :=
  if 0 < v.dot v then some (Vec3.smul (1 / Real.sqrt (v.dot v)) v) else none

/-- `SoundSource::calculate_panning` (`src/source.rs`): dot product of the
normalized listener-to-source direction with the listener's ear axis, falling
back to the look axis when the direction cannot be normalized. -/
noncomputable def calculatePanning (src : SoundSource ℝ) (listener : Listener) : ℝ :=
  ((tryNormalize (listener.position.sub src.position)).getD listener.lookAxis).dot
    listener.earAxis

/-- `render_source_default` (`src/lib.rs`): blend authored and geometric
panning with `spatial_blend`, derive per-channel gains, mix through
`render_with_params` and store the gains as the last applied ones. -/
noncomputable def renderSourceDefault (src : SoundSource ℝ) (listener : Listener)
    (mix : List (ℝ × ℝ)) : SoundSource ℝ × List (ℝ × ℝ) :=
  let panning := lerp src.panning (calculatePanning src listener) src.spatial_blend
  let gain := 1 * src.gain
  let left_gain := gain * (1 + panning)
  let right_gain := gain * (1 - panning)
  let p := renderWithParams src left_gain right_gain mix
  ({ p.1 with last_left_gain := some left_gain, last_right_gain := some right_gain },
    p.2)

end Geometry

section Context

/-- Modelled from the spec: `bus.rs` is absent from the sources.  The bus
graph is a collection of named buses; claims under verification do not
involve effect chains or the parent tree, so only the bus names are kept. -/
structure AudioBusGraph where
  busNames : List String

/-- Modelled from the spec: `begin_render(block_length)` allocates one zeroed
scratch stereo buffer per registered bus, sized to the block. -/
def beginRender (g : AudioBusGraph) (n : ℕ) : List (String × List (ℝ × ℝ)) :=
  g.busNames.map fun nm => (nm, List.replicate n ((0 : ℝ), (0 : ℝ)))

/-- Modelled from the spec: `try_get_bus_input_buffer(name)` returns the
scratch buffer of the named bus if it exists, or nothing. -/
def lookupBuf : List (String × List (ℝ × ℝ)) → String → Option (List (ℝ × ℝ))
  | [], _ => none
  | nb :: rest, name => if nb.1 = name then some nb.2 else lookupBuf rest name

/-- Writes back the named bus's scratch buffer after mixing into it. -/
def updateBus (buffers : List (String × List (ℝ × ℝ))) (name : String)
    (newBuf : List (ℝ × ℝ)) : List (String × List (ℝ × ℝ)) :=
  buffers.map fun nb => if nb.1 = name then (nb.1, newBuf) else nb

/-- Modelled from the spec: `end_render(output_buffer)` mixes the bus buffers
bottom-up into the primary bus and copies the primary bus's final buffer into
the output.  With effect chains not modelled, the primary bus's final buffer
is the pointwise sum of all bus input buffers. -/
def endRender (n : ℕ) (buffers : List (String × List (ℝ × ℝ))) : List (ℝ × ℝ) :=
  buffers.foldl
    (fun acc nb => List.zipWith (fun x y => (x.1 + y.1, x.2 + y.2)) acc nb.2)
    (List.replicate n ((0 : ℝ), (0 : ℝ)))

/-- The per-source body of the render loop in `SoundContextState::render`
(`src/lib.rs`): sources are visited in pool order; a `Playing` source whose
bus has a scratch buffer is rendered and mixed into that buffer, every other
source is left untouched. -/
noncomputable def processSources (listener : Listener) (n : ℕ) :
    List (SoundSource ℝ) → List (String × List (ℝ × ℝ)) →
    Option (List (SoundSource ℝ) × List (String × List (ℝ × ℝ)))
  | [], buffers => some ([], buffers)
  | s :: rest, buffers =>
    if s.status = Status.playing then
      match lookupBuf buffers s.bus with
      | some busBuf =>
        match SoundSource.render s n with
        | none => none
        | some s1 =>
          let p := renderSourceDefault s1 listener busBuf
          match processSources listener n rest (updateBus buffers s.bus p.2) with
          | none => none
          | some (rest1, buffers1) => some (p.1 :: rest1, buffers1)
      | none =>
        match processSources listener n rest buffers with
        | none => none
        | some (rest1, buffers1) => some (s :: rest1, buffers1)
    else
      match processSources listener n rest buffers with
      | none => none
      | some (rest1, buffers1) => some (s :: rest1, buffers1)

/-- State of a sound context (`src/lib.rs`); the pool of sources is modelled
from the spec as the ordered list of occupied slots (`pool.rs` is absent from
the sources), and wall-clock `render_duration` is not modelled. -/
structure SoundContextState where
  sources : List (SoundSource ℝ)
  listener : Listener
  busGraph : AudioBusGraph
  paused : Bool

/-- `SoundContextState::render` (`src/lib.rs`): unless paused, drop finished
play-once sources (`retain`), begin a bus render pass, render every `Playing`
source that routes to an existing bus into that bus's scratch buffer, and end
the pass into the output buffer.  A paused context does none of this and the
output buffer is left exactly as passed in. -/
noncomputable def SoundContextState.render (ctx : SoundContextState)
    (buf : List (ℝ × ℝ)) : Option (SoundContextState × List (ℝ × ℝ)) :=
  if ctx.paused then some (ctx, buf)
  else
    match processSources ctx.listener buf.length
        (ctx.sources.filter fun s => ¬ (s.play_once = true ∧ s.status = Status.stopped))
        (beginRender ctx.busGraph buf.length) with
    | none => none
    | some (sources1, buffers1) =>
      some ({ ctx with sources := sources1 }, endRender buf.length buffers1)

/-- Engine state (`src/lib.rs`), holding the registered contexts. -/
structure SoundEngineState where
  contexts : List SoundContextState

/-- `SoundEngineState::render_inner` (`src/lib.rs`): feed the buffer through
every context's render in order. -/
noncomputable def renderInner :
    List SoundContextState → List (ℝ × ℝ) →
    Option (List SoundContextState × List (ℝ × ℝ))
  | [], buf => some ([], buf)
  | c :: cs, buf =>
    match c.render buf with
    | none => none
    | some (c1, buf1) =>
      match renderInner cs buf1 with
      | none => none
      | some (cs1, buf2) => some (c1 :: cs1, buf2)

/-- `SoundEngineState::render` (`src/lib.rs`): `buf.fill((0.0, 0.0))`, then
`render_inner`. -/
noncomputable def SoundEngineState.render (e : SoundEngineState)
    (buf : List (ℝ × ℝ)) : Option (SoundEngineState × List (ℝ × ℝ)) :=
  match renderInner e.contexts (List.replicate buf.length ((0 : ℝ), (0 : ℝ))) with
  | none => none
  | some (cs, out) => some ({ contexts := cs }, out)

end Context

section ConcreteStates

/-- A freshly playing source over `K = ℚ` with pitch 1, unit resampling
multiplier and zeroed read positions, used for the concrete playback checks. -/
def freshSource (buf : Option (Buffer ℚ)) : SoundSource ℚ :=
  { name := "s"
    buffer := buf
    buf_read_pos := 0
    playback_pos := 0
    panning := 0
    pitch := 1
    gain := 1
    looping := false
    spatial_blend := 0
    resampling_multiplier := 1
    status := Status.playing
    bus := "master"
    play_once := false
    last_left_gain := none
    last_right_gain := none
    frame_samples := []
    prev_buffer_sample := (0, 0)
    radius := 1
    position := ⟨0, 0, 0⟩
    max_distance := 100
    rolloff_factor := 1 }

/-- Mono buffer with samples `[1, 2, 3, 4]`. -/
def monoBuffer1234 : Buffer ℚ :=
  { samples := [1, 2, 3, 4]
    channel_count := 1
    sample_rate := 44100
    channel_duration_in_samples := 4 }

/-- Mono buffer with the single sample `[1]` (valid per `Buffer::new`:
`1 % 1 == 0`). -/
def oneSampleBuffer : Buffer ℚ :=
  { samples := [1]
    channel_count := 1
    sample_rate := 44100
    channel_duration_in_samples := 1 }

/-- A playing, looping source at pitch 2 over the one-sample mono buffer. -/
def divergingSource : SoundSource ℚ :=
  { freshSource (some oneSampleBuffer) with pitch := 2, looping := true }

end ConcreteStates

set_option maxHeartbeats 1600000 in
/-- C5: for a mono buffer `[1,2,3,4]` and a playing source with pitch 1,
resampling multiplier 1 and read position 0, two consecutive `render 2` calls
produce frame samples `[(1,1),(2,2)]` and then `[(3,3),(4,4)]`; the
`step == 1` fast path duplicates mono samples to both channels and advances
`buf_read_pos` and `playback_pos` by the count copied. -/
theorem c5_fast_path :
    (SoundSource.render (freshSource (some monoBuffer1234)) 2).map
        (·.frame_samples) = some [(1, 1), (2, 2)]
    ∧ (SoundSource.render (freshSource (some monoBuffer1234)) 2).map
        (·.buf_read_pos) = some 2
    ∧ (SoundSource.render (freshSource (some monoBuffer1234)) 2).map
        (·.playback_pos) = some 2
    ∧ ((SoundSource.render (freshSource (some monoBuffer1234)) 2).bind
        (fun s => SoundSource.render s 2)).map (·.frame_samples) =
        some [(3, 3), (4, 4)]
    ∧ ((SoundSource.render (freshSource (some monoBuffer1234)) 2).bind
        (fun s => SoundSource.render s 2)).map (·.buf_read_pos) = some 4 := by
  refine ⟨?_, ?_, ?_, ?_, ?_⟩ <;>
    norm_num [SoundSource.render, renderPlayingLoop, renderUntilBlockEnd,
      listResize, freshSource, monoBuffer1234, List.range_succ, List.cons_ne_nil,
      List.replicate]

/-- C6: a 4-sample mono buffer rendered for 6 samples: with `looping = true`
samples 5 and 6 equal buffer samples 1 and 2 (the source rewinds to position
0 at the buffer end and keeps playing, ending at read position 2); with
`looping = false` the source transitions to `Stopped`, rewinds to 0, and the
remainder of the block is silent. -/
theorem c6_looping :
    (SoundSource.render { freshSource (some monoBuffer1234) with looping := true } 6).map
        (·.frame_samples) = some [(1, 1), (2, 2), (3, 3), (4, 4), (1, 1), (2, 2)]
    ∧ (SoundSource.render { freshSource (some monoBuffer1234) with looping := true } 6).map
        (·.status) = some Status.playing
    ∧ (SoundSource.render { freshSource (some monoBuffer1234) with looping := true } 6).map
        (·.buf_read_pos) = some 2
    ∧ (SoundSource.render (freshSource (some monoBuffer1234)) 6).map
        (·.frame_samples) = some [(1, 1), (2, 2), (3, 3), (4, 4), (0, 0), (0, 0)]
    ∧ (SoundSource.render (freshSource (some monoBuffer1234)) 6).map
        (·.status) = some Status.stopped
    ∧ (SoundSource.render (freshSource (some monoBuffer1234)) 6).map
        (·.buf_read_pos) = some 0 := by
  refine ⟨?_, ?_, ?_, ?_, ?_, ?_⟩ <;>
    norm_num [SoundSource.render, renderPlayingLoop, renderUntilBlockEnd,
      listResize, freshSource, monoBuffer1234, List.range_succ, List.cons_ne_nil,
      List.replicate]

/-- C2: refutation of unconditional termination.  For the reachable state
with the one-sample mono buffer `[1]`, pitch 2 (so `step = 2 ≠ 1`),
`looping = true` and status `Playing`, the `render_playing` loop of
`SoundSource::render(1)` never terminates: the resampling path renders 0
samples on every iteration (`buffer_last = 0`, so its hot loop exits
immediately), `count` never reaches `amount`, and the looping branch retries
from an identical state, for any amount of fuel. -/
theorem c2_nontermination :
    (∀ fuel, renderPlayingLoop (K := ℚ) oneSampleBuffer 1 fuel divergingSource 0 = none)
    ∧ SoundSource.render divergingSource 1 = none := by
  have h : ∀ fuel,
      renderPlayingLoop (K := ℚ) oneSampleBuffer 1 fuel divergingSource 0 = none := by
    intro fuel
    induction fuel with
    | zero => rfl
    | succ n ih =>
      rw [renderPlayingLoop]
      norm_num [renderUntilBlockEnd, renderUntilBlockEndResample, negLoopGo,
        resampleMainGo, divergingSource, freshSource, oneSampleBuffer]
      simpa [divergingSource, freshSource, oneSampleBuffer] using ih
  refine ⟨h, ?_⟩
  have h3 := h 3
  norm_num [SoundSource.render, divergingSource, freshSource, oneSampleBuffer,
    List.cons_ne_nil] at h3 ⊢
  rw [h3]

/-- The samples pushed by the `render_playing` stage of `SoundSource::render`
before the final `resize`: empty unless the source is playing with a
non-empty buffer (or when the playing loop diverges, in which case `render`
itself returns `none` and the value is irrelevant). -/
def playingFrames {K : Type} [LinearOrderedField K] [FloorRing K] [DecidableEq K]
    (src : SoundSource K) (amount : ℕ) : List (K × K) :=
  match src.buffer with
  | some buffer =>
    if src.status = Status.playing ∧ buffer.samples ≠ [] then
      match renderPlayingLoop buffer amount (amount + 2)
          { src with frame_samples := [] } 0 with
      | none => []
      | some s1 => s1.frame_samples
    else []
  | none => []

/-- `Vec::resize(n, v)` always yields length `n`. -/
theorem listResize_length {α : Type} (l : List α) (n : ℕ) (v : α) :
    (listResize l n v).length = n := by
  simp only [listResize, List.length_append, List.length_take, List.length_replicate]
  omega

/-- Everything `Vec::resize(n, v)` places beyond the original elements is `v`. -/
theorem listResize_drop {α : Type} (l : List α) (n : ℕ) (v : α) :
    List.drop l.length (listResize l n v) = List.replicate (n - l.length) v := by
  unfold listResize
  rcases le_or_lt l.length n with h | h
  · rw [List.take_of_length_le h, List.drop_left]
  · rw [List.drop_eq_nil_of_le, Nat.sub_eq_zero_of_le (le_of_lt h), List.replicate_zero]
    simp only [List.length_append, List.length_take, List.length_replicate]
    omega

/-- C7: whenever `SoundSource::render(amount)` returns, the scratch
`frame_samples` holds exactly `amount` stereo pairs; when the status is not
`Playing` or the buffer is absent or has no samples, every pair is `(0, 0)`;
and every entry past the samples produced by the playing stage is `(0, 0)`. -/
theorem c7_padding {K : Type} [LinearOrderedField K] [FloorRing K] [DecidableEq K]
    (src : SoundSource K) (amount : ℕ) (out : SoundSource K)
    (h : SoundSource.render src amount = some out) :
    out.frame_samples.length = amount
    ∧ ((src.status ≠ Status.playing ∨ src.buffer = none ∨
          (∀ b, src.buffer = some b → b.samples = [])) →
        out.frame_samples = List.replicate amount ((0 : K), (0 : K)))
    ∧ List.drop (playingFrames src amount).length out.frame_samples =
        List.replicate (amount - (playingFrames src amount).length) ((0 : K), (0 : K)) := by
  have hmain : out.frame_samples = listResize (playingFrames src amount) amount (0, 0)
      ∧ ((src.status ≠ Status.playing ∨ src.buffer = none ∨
            (∀ b, src.buffer = some b → b.samples = [])) →
          playingFrames src amount = []) := by
    rcases hb : src.buffer with _ | buffer
    · simp only [SoundSource.render, hb] at h
      cases h
      simp [playingFrames, hb]
    · simp only [SoundSource.render, hb] at h
      simp only [playingFrames, hb]
      split at h
      · rename_i hcond
        rw [if_pos hcond]
        rcases hres : renderPlayingLoop buffer amount (amount + 2)
            { src with frame_samples := ([] : List (K × K)), buffer := some buffer } 0
          with _ | s1
        · rw [hres] at h
          exact absurd h (by simp)
        · rw [hres] at h
          cases h
          refine ⟨rfl, fun hc => ?_⟩
          rcases hc with hc | hc | hc
          · exact absurd hcond.1 hc
          · exact absurd hc (by simp)
          · exact absurd (hc buffer rfl) hcond.2
      · rename_i hcond
        rw [if_neg hcond]
        cases h
        simp
  refine ⟨?_, fun hc => ?_, ?_⟩
  · rw [hmain.1]
    exact listResize_length _ _ _
  · rw [hmain.1, hmain.2 hc]
    simp [listResize]
  · rw [hmain.1]
    exact listResize_drop _ _ _

/-- C7 witness: a stopped source over a non-empty buffer rendered for 3
samples yields exactly 3 silent pairs. -/
theorem c7_witness :
    SoundSource.render
        { freshSource (some monoBuffer1234) with status := Status.stopped } 3
      = some
        { freshSource (some monoBuffer1234) with
            status := Status.stopped
            frame_samples := [(0, 0), (0, 0), (0, 0)] }
    ∧ ({ freshSource (some monoBuffer1234) with
          status := Status.stopped
          frame_samples := [(0, 0), (0, 0), (0, 0)] } : SoundSource ℚ).frame_samples.length
        = 3 :=
  ⟨rfl,
    (c7_padding { freshSource (some monoBuffer1234) with status := Status.stopped } 3 _
      rfl).1⟩

/-- `getD` on a replicated list inside bounds. -/
theorem getD_replicate {α : Type} (v d : α) :
    ∀ (n k : ℕ), k < n → (List.replicate n v).getD k d = v
  | _ + 1, 0, _ => rfl
  | n + 1, k + 1, h => getD_replicate v d n k (Nat.lt_of_succ_lt_succ h)

/-- Sample `k` of the gain-ramp mixing loop carries gain
`lerp(last, new, t0 + k*step)`, matching the `t += step` accumulation of
`render_with_params`. -/
theorem rampMix_getD {K : Type} [LinearOrderedField K]
    (lastL newL lastR newR step : K) :
    ∀ (k : ℕ) (mix frames : List (K × K)) (t : K), k < mix.length → k < frames.length →
      (rampMix lastL newL lastR newR step mix frames t).getD k (0, 0)
        = ((mix.getD k (0, 0)).1 +
            lerp lastL newL (t + (k : K) * step) * (frames.getD k (0, 0)).1,
           (mix.getD k (0, 0)).2 +
            lerp lastR newR (t + (k : K) * step) * (frames.getD k (0, 0)).2) := by
  intro k
  induction k with
  | zero =>
    intro mix frames t hm hf
    match mix, frames with
    | m :: mix, f :: frames =>
      simp [rampMix]
  | succ k ih =>
    intro mix frames t hm hf
    match mix, frames with
    | m :: mix, f :: frames =>
      have hm1 : k < mix.length := by simpa using Nat.lt_of_succ_lt_succ hm
      have hf1 : k < frames.length := by simpa using Nat.lt_of_succ_lt_succ hf
      have harg : t + step + (k : K) * step = t + ((k + 1 : ℕ) : K) * step := by
        push_cast
        ring
      simp only [rampMix, List.getD_cons_succ]
      rw [ih mix frames (t + step) hm1 hf1, harg]

/-- Sample `k` of the steady-gain mixing loop is a plain multiply-accumulate. -/
theorem constMix_getD {K : Type} [LinearOrderedField K] (newL newR : K) :
    ∀ (k : ℕ) (mix frames : List (K × K)), k < mix.length → k < frames.length →
      (constMix newL newR mix frames).getD k (0, 0)
        = ((mix.getD k (0, 0)).1 + newL * (frames.getD k (0, 0)).1,
           (mix.getD k (0, 0)).2 + newR * (frames.getD k (0, 0)).2) := by
  intro k
  induction k with
  | zero =>
    intro mix frames hm hf
    match mix, frames with
    | m :: mix, f :: frames => simp [constMix]
  | succ k ih =>
    intro mix frames hm hf
    match mix, frames with
    | m :: mix, f :: frames =>
      have hm1 : k < mix.length := by simpa using Nat.lt_of_succ_lt_succ hm
      have hf1 : k < frames.length := by simpa using Nat.lt_of_succ_lt_succ hf
      simp only [constMix, List.getD_cons_succ]
      exact ih mix frames hm1 hf1

/-- C4: `render_with_params` seeds absent last gains from the current gains
and mixes un-ramped on the first render of a source; on a later render whose
target gains differ from the stored last gains, sample `k` of a block of
length `n` is mixed with gain `lerp(last_gain, new_gain, k/n)`; and after a
gain change from 1 to 0 over a block of constant positive source samples
added into a silent mix buffer, the mixed samples strictly decrease across
the block on both channels. -/
theorem c4_gain_ramp {K : Type} [LinearOrderedField K] [FloorRing K] [DecidableEq K]
    (src : SoundSource K) (left_gain right_gain : K) (mix : List (K × K)) :
    (src.last_left_gain = none → src.last_right_gain = none →
      renderWithParams src left_gain right_gain mix =
        ({ src with
            last_left_gain := some left_gain
            last_right_gain := some right_gain },
          constMix left_gain right_gain mix src.frame_samples))
    ∧ (∀ llg lrg, src.last_left_gain = some llg → src.last_right_gain = some lrg →
        (llg ≠ left_gain ∨ lrg ≠ right_gain) →
        ∀ k, k < mix.length → k < src.frame_samples.length →
          ((renderWithParams src left_gain right_gain mix).2).getD k (0, 0)
            = ((mix.getD k (0, 0)).1 +
                lerp llg left_gain ((k : K) / (mix.length : K)) *
                  (src.frame_samples.getD k (0, 0)).1,
               (mix.getD k (0, 0)).2 +
                lerp lrg right_gain ((k : K) / (mix.length : K)) *
                  (src.frame_samples.getD k (0, 0)).2))
    ∧ (∀ (n : ℕ) (c : K), src.last_left_gain = some 1 → src.last_right_gain = some 1 →
        left_gain = 0 → right_gain = 0 → 0 < c →
        mix = List.replicate n (0, 0) →
        src.frame_samples = List.replicate n (c, c) →
        ∀ k, k + 1 < n →
          (((renderWithParams src left_gain right_gain mix).2).getD (k + 1) (0, 0)).1 <
              (((renderWithParams src left_gain right_gain mix).2).getD k (0, 0)).1
            ∧ (((renderWithParams src left_gain right_gain mix).2).getD (k + 1) (0, 0)).2 <
              (((renderWithParams src left_gain right_gain mix).2).getD k (0, 0)).2) := by
  have hramp : ∀ llg lrg, src.last_left_gain = some llg → src.last_right_gain = some lrg →
      (llg ≠ left_gain ∨ lrg ≠ right_gain) →
      ∀ k, k < mix.length → k < src.frame_samples.length →
        ((renderWithParams src left_gain right_gain mix).2).getD k (0, 0)
          = ((mix.getD k (0, 0)).1 +
              lerp llg left_gain ((k : K) / (mix.length : K)) *
                (src.frame_samples.getD k (0, 0)).1,
             (mix.getD k (0, 0)).2 +
              lerp lrg right_gain ((k : K) / (mix.length : K)) *
                (src.frame_samples.getD k (0, 0)).2) := by
    intro llg lrg hl hr hne k hkm hkf
    unfold renderWithParams
    rw [hl, hr]
    simp only [Option.getD_some]
    rw [if_pos hne]
    have := rampMix_getD llg left_gain lrg right_gain (1 / (mix.length : K))
      k mix src.frame_samples 0 hkm hkf
    rw [this]
    rw [zero_add, mul_one_div]
  refine ⟨?_, hramp, ?_⟩
  · intro hl hr
    unfold renderWithParams
    rw [hl, hr]
    simp only [Option.getD_none]
    rw [if_neg (by push_neg; exact ⟨rfl, rfl⟩)]
  · intro n c hl hr hlg hrg hc hmix hframes k hk
    have hn : 0 < n := by omega
    have hkn : k < n := by omega
    have hml : k < mix.length := by simp [hmix]; omega
    have hml1 : k + 1 < mix.length := by simp [hmix]; omega
    have hfl : k < src.frame_samples.length := by simp [hframes]; omega
    have hfl1 : k + 1 < src.frame_samples.length := by simp [hframes]; omega
    have hone : (1 : K) ≠ left_gain := by rw [hlg]; exact one_ne_zero
    have e1 := hramp 1 1 hl hr (Or.inl hone) k hml hfl
    have e2 := hramp 1 1 hl hr (Or.inl hone) (k + 1) hml1 hfl1
    rw [e1, e2, hmix, hframes]
    rw [getD_replicate _ _ n k hkn, getD_replicate _ _ n (k + 1) hk,
      getD_replicate _ _ n k hkn, getD_replicate _ _ n (k + 1) hk]
    simp only [List.length_replicate, hlg, hrg]
    have hnK : (0 : K) < (n : K) := by exact_mod_cast hn
    have hdiv : (k : K) / (n : K) < ((k + 1 : ℕ) : K) / (n : K) := by
      rw [div_lt_div_iff₀ hnK hnK]
      have : (k : K) < ((k + 1 : ℕ) : K) := by exact_mod_cast Nat.lt_succ_self k
      nlinarith
    have hmul := mul_lt_mul_of_pos_right hdiv hc
    constructor <;>
      · simp only [lerp]
        nlinarith [hmul]

/-- Source state right after a gain change from 1 to 0: stored last gains 1,
constant unit frame samples. -/
def rampSource : SoundSource ℚ :=
  { freshSource none with
      last_left_gain := some 1
      last_right_gain := some 1
      frame_samples := List.replicate 4 (1, 1) }

/-- C4 witness: with gains ramping from 1 to 0 over a 4-sample block of
constant positive samples, sample 2 is strictly quieter than sample 1 on both
channels. -/
theorem c4_witness :
    (0 : ℚ) < 1 ∧
      ((((renderWithParams rampSource 0 0 (List.replicate 4 ((0 : ℚ), (0 : ℚ)))).2).getD 2
            (0, 0)).1 <
          (((renderWithParams rampSource 0 0 (List.replicate 4 ((0 : ℚ), (0 : ℚ)))).2).getD 1
            (0, 0)).1
        ∧ (((renderWithParams rampSource 0 0 (List.replicate 4 ((0 : ℚ), (0 : ℚ)))).2).getD 2
            (0, 0)).2 <
          (((renderWithParams rampSource 0 0 (List.replicate 4 ((0 : ℚ), (0 : ℚ)))).2).getD 1
            (0, 0)).2) :=
  ⟨by norm_num,
    (c4_gain_ramp rampSource 0 0 (List.replicate 4 (0, 0))).2.2 4 1 rfl rfl rfl rfl
      (by norm_num) rfl rfl 1 (by norm_num)⟩

/-- A vector with a nonzero component has positive squared length. -/
theorem vec3_dot_self_pos (v : Vec3 ℝ) (h : v ≠ ⟨0, 0, 0⟩) : 0 < v.dot v := by
  rcases v with ⟨x, y, z⟩
  simp only [Vec3.dot]
  rcases eq_or_lt_of_le (add_nonneg (add_nonneg (mul_self_nonneg x) (mul_self_nonneg y)) (mul_self_nonneg z)) with heq | hlt
  · exfalso
    have hxx : x * x = 0 := le_antisymm
      (by nlinarith [mul_self_nonneg y, mul_self_nonneg z]) (mul_self_nonneg x)
    have hyy : y * y = 0 := le_antisymm
      (by nlinarith [mul_self_nonneg x, mul_self_nonneg z]) (mul_self_nonneg y)
    have hzz : z * z = 0 := le_antisymm
      (by nlinarith [mul_self_nonneg x, mul_self_nonneg y]) (mul_self_nonneg z)
    exact h (by
      simp only [mul_self_eq_zero] at hxx hyy hzz
      simp [hxx, hyy, hzz])
  · exact hlt

/-- C3: `render_source_default` mixes with `left_gain = gain*(1+panning)` and
`right_gain = gain*(1-panning)` where `panning` blends the authored panning
with the geometric panning via `spatial_blend`; the geometric panning is the
dot product of the normalized listener-to-source direction with the
listener's ear axis, falling back to the look axis — and hence to zero
panning whenever the look and ear axes are orthogonal, as in any orthonormal
basis — when the source and listener positions coincide. -/
theorem c3_panning (src : SoundSource ℝ) (listener : Listener) (mix : List (ℝ × ℝ)) :
    (renderSourceDefault src listener mix =
      ({ (renderWithParams src
            (1 * src.gain *
              (1 + lerp src.panning (calculatePanning src listener) src.spatial_blend))
            (1 * src.gain *
              (1 - lerp src.panning (calculatePanning src listener) src.spatial_blend))
            mix).1 with
          last_left_gain := some (1 * src.gain *
            (1 + lerp src.panning (calculatePanning src listener) src.spatial_blend))
          last_right_gain := some (1 * src.gain *
            (1 - lerp src.panning (calculatePanning src listener) src.spatial_blend)) },
        (renderWithParams src
            (1 * src.gain *
              (1 + lerp src.panning (calculatePanning src listener) src.spatial_blend))
            (1 * src.gain *
              (1 - lerp src.panning (calculatePanning src listener) src.spatial_blend))
            mix).2))
    ∧ (listener.position.sub src.position ≠ ⟨0, 0, 0⟩ →
        calculatePanning src listener =
          (Vec3.smul
              (1 / Real.sqrt ((listener.position.sub src.position).dot
                (listener.position.sub src.position)))
              (listener.position.sub src.position)).dot listener.earAxis)
    ∧ (listener.position = src.position →
        calculatePanning src listener = listener.lookAxis.dot listener.earAxis)
    ∧ (listener.position = src.position →
        listener.lookAxis.dot listener.earAxis = 0 →
        calculatePanning src listener = 0) := by
  have hcoincide : listener.position = src.position →
      calculatePanning src listener = listener.lookAxis.dot listener.earAxis := by
    intro h
    unfold calculatePanning tryNormalize
    have hsub : listener.position.sub src.position = ⟨0, 0, 0⟩ := by
      simp [Vec3.sub, h]
    rw [hsub]
    rw [if_neg (by simp [Vec3.dot])]
    rfl
  refine ⟨rfl, ?_, hcoincide, ?_⟩
  · intro h
    unfold calculatePanning tryNormalize
    rw [if_pos (vec3_dot_self_pos _ h)]
    rfl
  · intro h hdot
    rw [hcoincide h, hdot]

/-- A fresh source over `ℝ`, sitting at the origin. -/
noncomputable def sourceAtOrigin : SoundSource ℝ :=
  { name := "s"
    buffer := none
    buf_read_pos := 0
    playback_pos := 0
    panning := 0
    pitch := 1
    gain := 1
    looping := false
    spatial_blend := 0
    resampling_multiplier := 1
    status := Status.playing
    bus := "master"
    play_once := false
    last_left_gain := none
    last_right_gain := none
    frame_samples := []
    prev_buffer_sample := (0, 0)
    radius := 1
    position := ⟨0, 0, 0⟩
    max_distance := 100
    rolloff_factor := 1 }

/-- The default listener: identity basis at the origin. -/
def identityListener : Listener :=
  { basisCol0 := ⟨1, 0, 0⟩
    basisCol1 := ⟨0, 1, 0⟩
    basisCol2 := ⟨0, 0, 1⟩
    position := ⟨0, 0, 0⟩ }

/-- C3 witness: with the identity (orthonormal) basis and coinciding
positions, the geometric panning is zero. -/
theorem c3_witness :
    identityListener.position = sourceAtOrigin.position
    ∧ identityListener.lookAxis.dot identityListener.earAxis = 0
    ∧ calculatePanning sourceAtOrigin identityListener = 0 :=
  ⟨rfl, by norm_num [identityListener, Listener.lookAxis, Listener.earAxis, Vec3.dot],
    (c3_panning sourceAtOrigin identityListener []).2.2.2 rfl
      (by norm_num [identityListener, Listener.lookAxis, Listener.earAxis, Vec3.dot])⟩

/-- A name absent from the bus list is never found by the buffer lookup. -/
theorem lookupBuf_eq_none (name : String) :
    ∀ buffers : List (String × List (ℝ × ℝ)),
      name ∉ buffers.map Prod.fst → lookupBuf buffers name = none := by
  intro buffers
  induction buffers with
  | nil => intro _; rfl
  | cons nb rest ih =>
    intro h
    simp only [List.map_cons, List.mem_cons] at h
    push_neg at h
    unfold lookupBuf
    rw [if_neg (fun he => h.1 he.symm)]
    exact ih h.2

/-- Updating a bus's scratch buffer does not change the set of bus names. -/
theorem updateBus_map_fst (buffers : List (String × List (ℝ × ℝ)))
    (name : String) (nb : List (ℝ × ℝ)) :
    (updateBus buffers name nb).map Prod.fst = buffers.map Prod.fst := by
  induction buffers with
  | nil => rfl
  | cons b rest ih =>
    unfold updateBus at ih ⊢
    by_cases hb : b.1 = name
    · simp [hb, ih]
    · simp [hb, ih]

/-- `begin_render` registers exactly the graph's bus names. -/
theorem beginRender_map_fst (g : AudioBusGraph) (n : ℕ) :
    (beginRender g n).map Prod.fst = g.busNames := by
  unfold beginRender
  induction g.busNames with
  | nil => rfl
  | cons nm rest ih => simp only [List.map_cons, ih]

/-- Pointwise sum of two silent blocks is silent. -/
theorem zipWith_add_replicate_zero (n : ℕ) :
    List.zipWith (fun (x y : ℝ × ℝ) => (x.1 + y.1, x.2 + y.2))
        (List.replicate n ((0 : ℝ), (0 : ℝ))) (List.replicate n ((0 : ℝ), (0 : ℝ)))
      = List.replicate n ((0 : ℝ), (0 : ℝ)) := by
  induction n with
  | zero => rfl
  | succ n ih => simp [List.replicate_succ, ih]

/-- `end_render` over freshly zeroed bus buffers produces a silent block. -/
theorem endRender_beginRender (g : AudioBusGraph) (n : ℕ) :
    endRender n (beginRender g n) = List.replicate n ((0 : ℝ), (0 : ℝ)) := by
  unfold endRender beginRender
  induction g.busNames with
  | nil => rfl
  | cons nm rest ih =>
    simp only [List.map_cons, List.foldl_cons]
    rw [zipWith_add_replicate_zero]
    exact ih

/-- A playing source whose bus is not registered passes through the render
loop untouched. -/
theorem processSources_skips (listener : Listener) (n : ℕ) :
    ∀ (srcs : List (SoundSource ℝ)) (buffers : List (String × List (ℝ × ℝ)))
      (res : List (SoundSource ℝ) × List (String × List (ℝ × ℝ))),
      processSources listener n srcs buffers = some res →
      ∀ s ∈ srcs, s.status = Status.playing → s.bus ∉ buffers.map Prod.fst →
        s ∈ res.1 := by
  intro srcs
  induction srcs with
  | nil =>
    intro buffers res h s hs
    exact absurd hs (by simp)
  | cons s0 rest ih =>
    intro buffers res h s hs hplay hbus
    unfold processSources at h
    rcases List.mem_cons.mp hs with heq | hmem
    · subst heq
      rw [if_pos hplay, lookupBuf_eq_none s.bus buffers hbus] at h
      rcases hrec : processSources listener n rest buffers with _ | p
      · rw [hrec] at h
        exact absurd h (by simp)
      · rw [hrec] at h
        simp only [Option.some.injEq] at h
        subst h
        exact List.mem_cons_self s p.1
    · by_cases hplay0 : s0.status = Status.playing
      · rw [if_pos hplay0] at h
        rcases hlook : lookupBuf buffers s0.bus with _ | busBuf
        · rw [hlook] at h
          rcases hrec : processSources listener n rest buffers with _ | p
          · rw [hrec] at h
            exact absurd h (by simp)
          · rw [hrec] at h
            simp only [Option.some.injEq] at h
            subst h
            exact List.mem_cons_of_mem s0 (ih buffers p hrec s hmem hplay hbus)
        · rw [hlook] at h
          rcases hsrc : SoundSource.render s0 n with _ | s1
          · rw [hsrc] at h
            exact absurd h (by simp)
          · rw [hsrc] at h
            dsimp only at h
            rcases hrec : processSources listener n rest
                (updateBus buffers s0.bus (renderSourceDefault s1 listener busBuf).2)
              with _ | p
            · rw [hrec] at h
              exact absurd h (by simp)
            · rw [hrec] at h
              simp only [Option.some.injEq] at h
              subst h
              refine List.mem_cons_of_mem _ (ih _ p hrec s hmem hplay ?_)
              rw [updateBus_map_fst]
              exact hbus
      · rw [if_neg hplay0] at h
        rcases hrec : processSources listener n rest buffers with _ | p
        · rw [hrec] at h
          exact absurd h (by simp)
        · rw [hrec] at h
          simp only [Option.some.injEq] at h
          subst h
          exact List.mem_cons_of_mem s0 (ih buffers p hrec s hmem hplay hbus)

/-- C8: the context render pass with a single `Playing` source routed to a
bus name absent from the graph completes (no panic), surfaces no error, and
yields an all-zero output block with the source contributing nothing and the
context state unchanged. -/
theorem c8_missing_bus (ctx : SoundContextState) (s : SoundSource ℝ)
    (buf : List (ℝ × ℝ)) (hp : ctx.paused = false) (hs : ctx.sources = [s])
    (hst : s.status = Status.playing) (hb : s.bus ∉ ctx.busGraph.busNames) :
    SoundContextState.render ctx buf =
      some (ctx, List.replicate buf.length ((0 : ℝ), (0 : ℝ))) := by
  unfold SoundContextState.render
  rw [if_neg (by rw [hp]; simp)]
  have hfilter : List.filter
      (fun s => decide ¬ (s.play_once = true ∧ s.status = Status.stopped)) [s] = [s] := by
    simp [List.filter, hst]
  rw [hs, hfilter]
  have hlook : lookupBuf (beginRender ctx.busGraph buf.length) s.bus = none :=
    lookupBuf_eq_none s.bus _ (by rw [beginRender_map_fst]; exact hb)
  have hproc : processSources ctx.listener buf.length [s]
      (beginRender ctx.busGraph buf.length) =
      some ([s], beginRender ctx.busGraph buf.length) := by
    unfold processSources
    rw [if_pos hst, hlook]
    rfl
  rw [hproc]
  simp only [Option.some.injEq, Prod.mk.injEq]
  constructor
  · rw [← hs]
  · exact endRender_beginRender ctx.busGraph buf.length

/-- C8 witness: a concrete playing source routed to the unregistered bus
name over a graph holding only the primary bus. -/
theorem c8_witness :
    (sourceAtOrigin.bus ∉ (AudioBusGraph.mk ["primary"]).busNames)
    ∧ SoundContextState.render
        { sources := [sourceAtOrigin], listener := identityListener,
          busGraph := AudioBusGraph.mk ["primary"], paused := false }
        [((5 : ℝ), (6 : ℝ)), ((7 : ℝ), (8 : ℝ))] =
      some
        ({ sources := [sourceAtOrigin], listener := identityListener,
            busGraph := AudioBusGraph.mk ["primary"], paused := false },
          List.replicate 2 ((0 : ℝ), (0 : ℝ))) :=
  ⟨by simp [sourceAtOrigin],
    c8_missing_bus _ sourceAtOrigin _ rfl rfl rfl (by simp [sourceAtOrigin])⟩

/-- C10: during a completed context render pass, a `Playing` source whose
target bus is missing from the graph is skipped entirely: `render` is never
invoked on it and the very same source value — read positions, status,
scratch samples and last gains included — is still among the context's
sources afterwards. -/
theorem c10_skipped_source_frozen (ctx : SoundContextState) (buf : List (ℝ × ℝ))
    (ctx1 : SoundContextState) (out : List (ℝ × ℝ))
    (h : SoundContextState.render ctx buf = some (ctx1, out))
    (s : SoundSource ℝ) (hs : s ∈ ctx.sources) (hplay : s.status = Status.playing)
    (hb : s.bus ∉ ctx.busGraph.busNames) : s ∈ ctx1.sources := by
  unfold SoundContextState.render at h
  by_cases hp : ctx.paused
  · rw [if_pos hp] at h
    simp only [Option.some.injEq, Prod.mk.injEq] at h
    rw [← h.1]
    exact hs
  · rw [if_neg hp] at h
    rcases hproc : processSources ctx.listener buf.length
        (List.filter (fun s => decide ¬ (s.play_once = true ∧ s.status = Status.stopped))
          ctx.sources)
        (beginRender ctx.busGraph buf.length) with _ | p
    · rw [hproc] at h
      exact absurd h (by simp)
    · rw [hproc] at h
      simp only [Option.some.injEq, Prod.mk.injEq] at h
      have hmem : s ∈ List.filter
          (fun s => decide ¬ (s.play_once = true ∧ s.status = Status.stopped))
          ctx.sources := by
        refine List.mem_filter.mpr ⟨hs, ?_⟩
        simp [hplay]
      have := processSources_skips ctx.listener buf.length _ _ p hproc s hmem hplay
        (by rw [beginRender_map_fst]; exact hb)
      rw [← h.1]
      exact this

/-- The concrete context of the missing-bus scenario: one playing source
routed to an unregistered bus over a graph holding only the primary bus. -/
noncomputable def missingBusContext : SoundContextState :=
  { sources := [sourceAtOrigin]
    listener := identityListener
    busGraph := AudioBusGraph.mk ["primary"]
    paused := false }

/-- C10 witness: after the concrete missing-bus render pass, the very same
source value is still in the pool. -/
theorem c10_witness :
    SoundContextState.render missingBusContext [((5 : ℝ), (6 : ℝ))] =
      some (missingBusContext, endRender 1 (beginRender (AudioBusGraph.mk ["primary"]) 1))
    ∧ sourceAtOrigin ∈ missingBusContext.sources :=
  ⟨rfl,
    c10_skipped_source_frozen missingBusContext [((5 : ℝ), (6 : ℝ))] missingBusContext
      (endRender 1 (beginRender (AudioBusGraph.mk ["primary"]) 1)) rfl
      sourceAtOrigin (by simp [missingBusContext]) rfl
      (by simp [missingBusContext, sourceAtOrigin])⟩

/-- A paused context with one registered bus. -/
noncomputable def pausedContext : SoundContextState :=
  { sources := []
    listener := identityListener
    busGraph := AudioBusGraph.mk ["master"]
    paused := true }

/-- C1 counterexample: `SoundContextState::render` does not zero the output
buffer; on a paused context it returns with the buffer exactly as passed in,
so a non-silent input buffer stays non-silent. -/
theorem c1_counterexample :
    SoundContextState.render pausedContext [((1 : ℝ), (1 : ℝ))] =
      some (pausedContext, [((1 : ℝ), (1 : ℝ))])
    ∧ [((1 : ℝ), (1 : ℝ))] ≠ [((0 : ℝ), (0 : ℝ))] :=
  ⟨rfl, by norm_num⟩

/-- Feeding a buffer through the renders of all-paused contexts leaves it
unchanged. -/
theorem renderInner_paused :
    ∀ (cs : List SoundContextState) (buf : List (ℝ × ℝ)),
      (∀ c ∈ cs, c.paused = true) → renderInner cs buf = some (cs, buf) := by
  intro cs
  induction cs with
  | nil => intro buf _; rfl
  | cons c cs ih =>
    intro buf h
    have hc : c.paused = true := h c (List.mem_cons_self c cs)
    unfold renderInner SoundContextState.render
    rw [hc]
    simp only [if_true]
    rw [ih buf fun d hd => h d (List.mem_cons_of_mem c hd)]

/-- C1 (amended): `SoundContextState::render` performs no zeroing itself —
the zero fill happens in `SoundEngineState::render` before the contexts run —
and a paused context returns immediately with the buffer exactly as passed in
and its state untouched (no source rendering, no retain pass, no bus-graph
work), so the engine-level output is silent when every context is paused. -/
theorem c1_paused_render :
    (∀ (ctx : SoundContextState) (buf : List (ℝ × ℝ)), ctx.paused = true →
        SoundContextState.render ctx buf = some (ctx, buf))
    ∧ (∀ (e : SoundEngineState) (buf : List (ℝ × ℝ)),
        (∀ c ∈ e.contexts, c.paused = true) →
        SoundEngineState.render e buf =
          some (e, List.replicate buf.length ((0 : ℝ), (0 : ℝ)))) := by
  constructor
  · intro ctx buf h
    unfold SoundContextState.render
    rw [h]
    simp only [if_true]
  · intro e buf h
    unfold SoundEngineState.render
    rw [renderInner_paused e.contexts _ h]

/-- C1 witness: a paused context leaves a non-trivial buffer untouched, and
the engine render of that single paused context is silent. -/
theorem c1_witness :
    pausedContext.paused = true
    ∧ SoundContextState.render pausedContext [((2 : ℝ), (3 : ℝ))] =
        some (pausedContext, [((2 : ℝ), (3 : ℝ))])
    ∧ SoundEngineState.render (SoundEngineState.mk [pausedContext])
        [((2 : ℝ), (3 : ℝ))] =
        some (SoundEngineState.mk [pausedContext], List.replicate 1 ((0 : ℝ), (0 : ℝ))) :=
  ⟨rfl, c1_paused_render.1 pausedContext [((2 : ℝ), (3 : ℝ))] rfl,
    c1_paused_render.2 (SoundEngineState.mk [pausedContext]) [((2 : ℝ), (3 : ℝ))]
      fun c hc => by rw [List.mem_singleton.mp hc]; rfl⟩

/-- C9: `Buffer::new` on raw data errors exactly when the channel count is
outside `{1, 2}` or the sample count is not a multiple of the channel count,
and on success stores the samples, channel count and sample rate unchanged
with `channel_duration_in_samples = samples.len() / channel_count`. -/
theorem c9_buffer_new {K : Type} [LinearOrderedField K] [FloorRing K] [DecidableEq K]
    (sample_rate channel_count : ℕ) (samples : List K) :
    ((∃ msg, Buffer.new sample_rate channel_count samples = Except.error msg) ↔
        (¬ (channel_count = 1 ∨ channel_count = 2) ∨
          samples.length % channel_count ≠ 0))
    ∧ (∀ b : Buffer K, Buffer.new sample_rate channel_count samples = Except.ok b →
        b.samples = samples ∧ b.channel_count = channel_count ∧
          b.sample_rate = sample_rate ∧
          b.channel_duration_in_samples = samples.length / channel_count) := by
  unfold Buffer.new
  by_cases h : channel_count < 1 ∨ 2 < channel_count ∨ samples.length % channel_count ≠ 0
  · rw [if_pos h]
    constructor
    · simp only [Except.error.injEq, exists_eq']
      constructor
      · intro _
        omega
      · intro _
        trivial
    · intro b hb
      exact absurd hb (by simp)
  · rw [if_neg h, if_neg (by omega)]
    constructor
    · simp only [reduceCtorEq, exists_const, false_iff]
      omega
    · intro b hb
      cases hb
      exact ⟨rfl, rfl, rfl, rfl⟩

/-- C9 witness: a concrete successful construction. -/
theorem c9_witness :
    Buffer.new (K := ℚ) 8000 2 [1, 2, 3, 4] =
      Except.ok
        { samples := [1, 2, 3, 4], channel_count := 2, sample_rate := 8000,
          channel_duration_in_samples := 2 }
    ∧ ({ samples := [1, 2, 3, 4], channel_count := 2, sample_rate := 8000,
          channel_duration_in_samples := 2 } : Buffer ℚ).channel_duration_in_samples
        = [(1 : ℚ), 2, 3, 4].length / 2 :=
  ⟨rfl, ((c9_buffer_new (K := ℚ) 8000 2 [1, 2, 3, 4]).2
      { samples := [1, 2, 3, 4], channel_count := 2, sample_rate := 8000,
        channel_duration_in_samples := 2 } (by rfl)).2.2.2⟩
